import Mathlib

/-!
Verification development for the fetch/cache orchestration layer of
`mtg_art_picker.py`.

The Python source is shallowly embedded: pure helpers become Lean
functions, the mutable window / project state becomes an explicit
`AppState` record threaded through the handlers, the disk cache becomes
an explicit `FS` record, and the network is an oracle argument.  Machine
details that are external to the program (the Qt event loop, the HTTP
client, `json.dumps`/`json.loads` at the text layer, sha256) are modelled
at the boundary where the program observes them; each such spot carries a
comment naming the source lines it embeds.
-/

namespace MtgArtPicker

/-! ## Character / string helpers

Python string primitives used by the source (`str.split("::")`,
`str.startswith`, `int(...)`, `str.lower`, f-string rendering of ints)
are re-implemented on `List Char` so that they reduce in the kernel.
-/

/-- Does the second char list start with the first one? -/
def charsLead : List Char → List Char → Bool
  | [], _ => true
  | _ :: _, [] => false
  | a :: as, b :: bs => a = b && charsLead as bs

/-- Python `s.startswith(p)`. -/
def pyStartsWith (p s : String) : Bool :=
  charsLead p.toList s.toList

/-- Python `s.split("::")` on char lists: split on non-overlapping
occurrences of the two-char separator `::`, left to right.  The
accumulator holds the current field reversed. -/
def splitCC : List Char → List Char → List (List Char)
  | [], acc => [acc.reverse]
  | [c], acc => [(c :: acc).reverse]
  | ':' :: ':' :: rest, acc => acc.reverse :: splitCC rest []
  | c :: rest, acc => splitCC rest (c :: acc)

/-- Python `key.split("::")` (source line 1247 / 1271). -/
def pySplit2 (s : String) : List String :=
  (splitCC s.toList []).map fun cs => String.mk cs

/-- Value of a decimal digit character, if it is one. -/
def digitVal (c : Char) : Option Nat :=
  if '0' ≤ c ∧ c ≤ '9' then some (c.toNat - '0'.toNat) else none

/-- Python `int(s)` for the non-negative integers that appear in the
image keys (the tokens and indices are rendered from non-negative
counters).  Returns `none` when the string is not a plain digit string;
Python would raise `ValueError` there and the handlers return.  (A
negative literal would parse in Python and then fail the `0 <= idx`
bounds check; both behaviours end in the same silent return.) -/
def parsePyNat (s : String) : Option Nat :=
  match s.toList with
  | [] => none
  | cs =>
    cs.foldl (fun acc c =>
      match acc, digitVal c with
      | some n, some d => some (n * 10 + d)
      | _, _ => none) (some 0)

/-- Decimal digits of `n`, most significant first (fuel-driven so the
kernel can evaluate it). -/
def natDigits : Nat → Nat → List Char
  | 0, _ => []
  | fuel + 1, n =>
    if n < 10 then [Char.ofNat (48 + n)]
    else natDigits fuel (n / 10) ++ [Char.ofNat (48 + n % 10)]

/-- f-string rendering of a non-negative integer. -/
def natStr (n : Nat) : String :=
  String.mk (natDigits (n + 1) n)

/-- ASCII lower-casing, as Python `str.lower()` restricted to the ASCII
queries the program builds. -/
def asciiLowerChar (c : Char) : Char :=
  if 'A' ≤ c ∧ c ≤ 'Z' then Char.ofNat (c.toNat + 32) else c

/-- Python `q.lower()`. -/
def asciiLower (s : String) : String :=
  String.mk (s.toList.map asciiLowerChar)

/-- Python truthiness of an optional string (`None` and `""` are falsy). -/
def pyTruthyS : Option String → Bool
  | none => false
  | some s => !(s == "")

/-- Python `a or b` on optional strings. -/
def pyOrS (a b : Option String) : Option String :=
  if pyTruthyS a then a else b

/-- Join a list of strings with a separator. -/
def joinSep (sep : String) : List String → String
  | [] => ""
  | [x] => x
  | x :: rest => x ++ sep ++ joinSep sep rest

/-! ## Data model: `Printing` (source lines 142-152) -/

/-- One concrete printing of a card, as the `@dataclass Printing`.
The Python dataclass declares `str` / `Optional[str]` fields; the
runtime does not enforce them, but every `Printing` the program builds
(`fetch_all_printings_with_query`, cache decode of its own writes)
satisfies them, so the model uses `String` / `Option String`. -/
structure Printing where
  set_code : String
  set_name : String
  collector_number : String
  released_at : String
  scryfall_uri : String
  image_small : String
  image_normal : String
  image_png : Option String
  image_large : Option String
deriving DecidableEq, Repr

/-! ## JSON layer for the metadata cache

The meta cache file holds `json.dumps([pp.__dict__ for pp in printings])`
and is read back with `json.loads` followed by `Printing(**x)` per
element (source lines 434-446).  The text layer (`dumps`/`loads` of a
JSON document) is the Python stdlib and is modelled as the identity on a
JSON AST: a cache file stores a `JValue`.  A file whose text is not JSON
at all raises in `json.loads` exactly as a wrong-shaped `JValue` raises
here, so the observable behaviour of the read path is preserved. -/

inductive JValue where
  | null
  | jbool (b : Bool)
  | jnum (n : Int)
  | jstr (s : String)
  | jarr (xs : List JValue)
  | jobj (fields : List (String × JValue))

/-- `pp.__dict__` rendering of an optional-string field. -/
def optStrJ : Option String → JValue
  | none => JValue.null
  | some s => JValue.jstr s

/-- `pp.__dict__` of one printing: the nine dataclass fields in
declaration order (source line 444). -/
def printingJson (p : Printing) : JValue :=
  JValue.jobj
    [("set_code", JValue.jstr p.set_code),
     ("set_name", JValue.jstr p.set_name),
     ("collector_number", JValue.jstr p.collector_number),
     ("released_at", JValue.jstr p.released_at),
     ("scryfall_uri", JValue.jstr p.scryfall_uri),
     ("image_small", JValue.jstr p.image_small),
     ("image_normal", JValue.jstr p.image_normal),
     ("image_png", optStrJ p.image_png),
     ("image_large", optStrJ p.image_large)]

/-- Association lookup in a JSON object. -/
def jlookup (k : String) : List (String × JValue) → Option JValue
  | [] => none
  | (k1, v) :: rest => if k1 = k then some v else jlookup k rest

/-- Decode a required string field.  `Printing(**x)` itself performs no
type check; the model requires the string shape the program writes.  The
divergence only concerns hand-corrupted files whose field values have
the wrong type, which the development does not rely on. -/
def asStr : Option JValue → Except String String
  | some (JValue.jstr s) => Except.ok s
  | _ => Except.error "TypeError"

/-- Decode an optional string field (`null` was written for `None`). -/
def asOptStr : Option JValue → Except String (Option String)
  | some JValue.null => Except.ok none
  | some (JValue.jstr s) => Except.ok (some s)
  | _ => Except.error "TypeError"

/-- `Printing(**x)`: `x` must be an object carrying exactly the nine
dataclass keys (a missing or an extra keyword raises `TypeError`; JSON
objects from `loads` have distinct keys, so nine successful lookups
plus length nine pin the key set down). -/
def printingOfJson : JValue → Except String Printing
  | JValue.jobj fields =>
    if fields.length = 9 then do
      let sc ← asStr (jlookup "set_code" fields)
      let sn ← asStr (jlookup "set_name" fields)
      let cn ← asStr (jlookup "collector_number" fields)
      let ra ← asStr (jlookup "released_at" fields)
      let su ← asStr (jlookup "scryfall_uri" fields)
      let is ← asStr (jlookup "image_small" fields)
      let im ← asStr (jlookup "image_normal" fields)
      let ip ← asOptStr (jlookup "image_png" fields)
      let il ← asOptStr (jlookup "image_large" fields)
      Except.ok ⟨sc, sn, cn, ra, su, is, im, ip, il⟩
    else Except.error "TypeError"
  | _ => Except.error "TypeError"

/-- Decode the elements of the cached JSON array in order, stopping at
the first failure (the Python list comprehension raises there). -/
def decodeJList : List JValue → Except String (List Printing)
  | [] => Except.ok []
  | x :: rest => do
    let p ← printingOfJson x
    let ps ← decodeJList rest
    Except.ok (p :: ps)

/-- `[Printing(**x) for x in raw]` over the parsed file content.  A
non-array document raises in Python as well, except for the two empty
iterables (`""` and `{}`) which iterate zero elements; those corners are
reproduced. -/
def decodeMetaFile : JValue → Except String (List Printing)
  | JValue.jarr xs => decodeJList xs
  | JValue.jstr s => if s = "" then Except.ok [] else Except.error "TypeError"
  | JValue.jobj fields =>
    match fields with
    | [] => Except.ok []
    | _ :: _ => Except.error "TypeError"
  | _ => Except.error "TypeError"

/-! ## Disk cache (`Project`, source lines 353-461)

Files are addressed by the deterministic names built from
`cache_key(card)` and the signature (plus kind and index for images);
the name derivation is injective up to sha256-prefix collisions, which
the program assumes absent, so the model keys files by the tuple
directly.  The image directory is `cache_small` exactly when
`kind == "small"` and `cache_normal` for every other kind string
(source line 449). -/

def Bytes := List Nat
deriving DecidableEq, Repr

structure FS where
  metaFiles : String × String → Option JValue
  imageFiles : Bool × String × String × Nat → Option Bytes

/-- The empty cache directory. -/
def emptyFS : FS :=
  { metaFiles := fun _ => none, imageFiles := fun _ => none }

/-- `Project.get_cached_meta` (source lines 434-439).  There is no
exception handler here: a present file whose content does not decode
propagates the error to the caller. -/
def get_cached_meta (fs : FS) (card sig : String) : Except String (Option (List Printing)) :=
  match fs.metaFiles (card, sig) with
  | none => Except.ok none
  | some j =>
    match decodeMetaFile j with
    | Except.ok prints => Except.ok (some prints)
    | Except.error e => Except.error e

/-- `Project.set_cached_meta` (source lines 441-446).  The write is
wrapped in `try/except`: `writeFail` injects the environment failure
(disk full, permission); a failed write is logged and leaves the cache
untouched. -/
def set_cached_meta (writeFail : Bool) (fs : FS) (card sig : String)
    (printings : List Printing) : FS :=
  if writeFail then fs
  else
    { fs with metaFiles := fun k =>
        if k = (card, sig) then some (JValue.jarr (printings.map printingJson))
        else fs.metaFiles k }

/-- Directory selector of `image_cache_path` (source line 449). -/
def imageDirSmall (kind : String) : Bool := kind = "small"

/-- `Project.get_cached_image_bytes` (source lines 452-454). -/
def get_cached_image_bytes (fs : FS) (kind card sig : String) (idx : Nat) : Option Bytes :=
  fs.imageFiles (imageDirSmall kind, card, sig, idx)

/-- `Project.set_cached_image_bytes` (source lines 456-461), again with
the `try/except` around the write modelled by `writeFail`. -/
def set_cached_image_bytes (writeFail : Bool) (fs : FS) (kind card sig : String)
    (idx : Nat) (data : Bytes) : FS :=
  if writeFail then fs
  else
    { fs with imageFiles := fun k =>
        if k = (imageDirSmall kind, card, sig, idx) then some data
        else fs.imageFiles k }

/-! ## Filters and the filter signature

The filter configuration is the dict of `DEFAULT_FILTERS` (source lines
206-217), modelled as an association list of string keys to bool/string
values.  `filters_signature` (source lines 200-202) is a 10-hex-digit
sha256 prefix of the sort_keys JSON blob of the dict; the cryptographic
hash is external, and the program relies only on the signature being a
deterministic function of the dict that never collides with the reserved
sentinel `"ALL"`.  The model uses the canonical sorted blob itself
(prefixed so it can never equal `"ALL"`), which has exactly those
properties. -/

inductive FVal where
  | fbool (b : Bool)
  | fstr (s : String)
deriving DecidableEq, Repr

abbrev Filters := List (String × FVal)

def DEFAULT_FILTERS : Filters :=
  [("prefer_borderless", FVal.fbool false),
   ("border", FVal.fstr "any"),
   ("frame_edition", FVal.fstr "any"),
   ("frame_effect", FVal.fstr "any"),
   ("is_full", FVal.fbool false),
   ("is_hires", FVal.fbool false),
   ("is_default", FVal.fbool false),
   ("is_atypical", FVal.fbool false),
   ("exclude_ub", FVal.fbool false),
   ("stamp", FVal.fstr "any")]

/-- Insert one binding into a key-sorted filter list. -/
def finsert (p : String × FVal) : Filters → Filters
  | [] => [p]
  | q :: rest => if p.1 < q.1 then p :: q :: rest else q :: finsert p rest

/-- Sort the filter dict by key, as `json.dumps(..., sort_keys=True)`. -/
def fsort : Filters → Filters
  | [] => []
  | p :: rest => finsert p (fsort rest)

def fvalBlob : FVal → String
  | FVal.fbool true => "true"
  | FVal.fbool false => "false"
  | FVal.fstr s => "s:" ++ s

def fieldBlob (p : String × FVal) : String := p.1 ++ "=" ++ fvalBlob p.2

/-- `filters_signature` (source lines 200-202), at the model level
described above. -/
def filters_signature (f : Filters) : String :=
  "sig(" ++ joinSep ";" ((fsort f).map fieldBlob) ++ ")"

/-! ## Window state (`MainWindow`, source lines 754-783 and onwards)

Only the fields the orchestration layer reads or writes are tracked.
UI-only artefacts (label texts, pixmaps, styles, scroll geometry) are
events, not state; handlers report them through effect values. -/

/-- One thumbnail label (`ThumbLabel`): its generation `token` and
source url are set in `build_thumbnails`; `valid` models Qt widget
liveness (`isValid`); `loaded` is flipped when its pixmap arrives. -/
structure ThumbWidget where
  token : Nat
  url : String
  loaded : Bool
  valid : Bool
deriving DecidableEq, Repr

/-- `_prints_fingerprint` returns `(0,)` on an empty list and a 5-tuple
otherwise (source lines 1342-1347). -/
inductive Fingerprint where
  | empty
  | five (n : Nat) (firstSet firstColl lastSet lastColl : String)
deriving DecidableEq, Repr

structure AppState where
  deck : List String
  currentIndex : Nat
  filters : Filters
  cardQuery : String → Option String
  cardQty : String → Option Nat
  activePrintingIndex : String → Option Nat
  metaByKey : String × String → Option (List Printing)
  fetchingMeta : String × String → Bool
  allPrintsOverride : String → Bool
  autoRelaxedCards : String → Bool
  bigToken : Nat
  thumbToken : Nat
  bigImageValid : Bool
  thumbWidgets : List (Option ThumbWidget)
  thumbContext : Option (String × String × Fingerprint)

/-- Add an element to a Bool-valued set. -/
def setAdd [DecidableEq α] (f : α → Bool) (a : α) : α → Bool :=
  fun x => if x = a then true else f x

/-- `set.discard` / `set.remove`. -/
def setDel [DecidableEq α] (f : α → Bool) (a : α) : α → Bool :=
  fun x => if x = a then false else f x

/-- Point update of an optional-valued map (dict assignment). -/
def mapInsert [DecidableEq α] (f : α → Option β) (a : α) (b : β) : α → Option β :=
  fun x => if x = a then some b else f x

/-- `current_card` (source lines 1129-1130): `deck[current_index]`.
Callers guard on a non-empty deck first; an in-range index is maintained
by `goto_index`'s clamping, so the out-of-range `IndexError` state is
unreachable and surfaces here as `none`. -/
def current_card? (s : AppState) : Option String :=
  s.deck.get? s.currentIndex

/-- `current_sig` (source lines 940-941): the dict is replaced by
`DEFAULT_FILTERS` when falsy. -/
def current_sig (s : AppState) : String :=
  filters_signature (if s.filters = [] then DEFAULT_FILTERS else s.filters)

/-- `effective_sig_for_card` (source lines 943-944). -/
def effective_sig_for_card (s : AppState) (card : String) : String :=
  if s.allPrintsOverride card then "ALL" else current_sig s

/-- `effective_filters_for_card` (source lines 946-949). -/
def effective_filters_for_card (s : AppState) (card : String) : Filters :=
  if s.allPrintsOverride card then []
  else if s.filters = [] then DEFAULT_FILTERS else s.filters

/-- `query_for_card` (source lines 931-932). -/
def query_for_card (s : AppState) (card : String) : String :=
  (s.cardQuery card).getD card

/-- `is_exact_name` (source lines 934-936). -/
def is_exact_name (s : AppState) (card : String) : Bool :=
  !(pyStartsWith "type:token" (asciiLower (query_for_card s card)))

/-- `active_printing_idx` (source lines 1132-1133). -/
def active_printing_idx (s : AppState) (card : String) : Nat :=
  (s.activePrintingIndex card).getD 0

/-! ## Rendering state transitions (`refresh_card_ui` and helpers)

`refresh_card_ui` (source lines 1349-1394) mutates the tracked state
(active printing index, big-preview token, thumbnail rebuild) and emits
one big-image load request; the purely visual work (info texts,
highlighting, centring, visible-thumb loading, which changes no tracked
field) is outside the state. -/

/-- `_prints_fingerprint` (source lines 1342-1347). -/
def prints_fingerprint (prints : List Printing) : Fingerprint :=
  match prints with
  | [] => Fingerprint.empty
  | first :: rest =>
    let last := (first :: rest).getLastD first
    Fingerprint.five (first :: rest).length first.set_code first.collector_number
      last.set_code last.collector_number

/-- `clear_thumbnails` (source lines 1411-1421): drops the widget list
and bumps the thumb token to invalidate pending thumb signals. -/
def clear_thumbnails (s : AppState) : AppState :=
  { s with thumbWidgets := [], thumbToken := s.thumbToken + 1 }

/-- `build_thumbnails` (source lines 1423-1437): clear, bump the token
again, and append one live, unloaded widget per printing carrying the
new token and the small-image url. -/
def build_thumbnails (s : AppState) (prints : List Printing) : AppState :=
  let s1 := clear_thumbnails s
  let tok := s1.thumbToken + 1
  { s1 with
    thumbToken := tok,
    thumbWidgets := prints.map fun pr =>
      some { token := tok, url := pr.image_small, loaded := false, valid := true } }

/-- One image-load request handed to `load_image_bytes_cached`
(source line 1383). -/
structure LoadReq where
  kind : String
  card : String
  sig : String
  idx : Nat
  url : String
  key : String
deriving DecidableEq, Repr

/-- The big-preview key `big::{card}::{sig}::{token}::{aidx}`. -/
def bigKey (card sig : String) (tok aidx : Nat) : String :=
  "big::" ++ card ++ "::" ++ sig ++ "::" ++ natStr tok ++ "::" ++ natStr aidx

/-- `refresh_card_ui` (source lines 1349-1394). -/
def refresh_card_ui (s : AppState) (card : String) : AppState × Option LoadReq :=
  let sig := effective_sig_for_card s card
  let prints := (s.metaByKey (card, sig)).getD []
  match prints with
  | [] => (clear_thumbnails s, none)
  | first :: rest =>
    let prints := first :: rest
    let aidx := min (active_printing_idx s card) (prints.length - 1)
    let s1 := { s with activePrintingIndex := mapInsert s.activePrintingIndex card aidx }
    let p := prints.getD aidx first
    let s2 := { s1 with bigToken := s1.bigToken + 1 }
    let req : LoadReq :=
      { kind := "normal", card := card, sig := sig, idx := aidx,
        url := p.image_normal, key := bigKey card sig s2.bigToken aidx }
    let ctx := (card, sig, prints_fingerprint prints)
    let s3 := if s2.thumbContext ≠ some ctx
      then { build_thumbnails s2 prints with thumbContext := some ctx }
      else s2
    (s3, some req)

/-! ## Metadata orchestration (`ensure_meta` and its completion
handlers, source lines 1141-1202) -/

/-- The closure data captured when `ensure_meta` submits its worker to
the metadata pool (source lines 1157-1180). -/
structure MetaJob where
  card : String
  sig : String
  query : String
  exact : Bool
  filtersCopy : Filters
deriving DecidableEq, Repr

/-- What one `ensure_meta` call does besides updating the state:
refresh from memory, refresh after a disk-cache load, silently decline
because the key is in flight, submit a fetch job, or propagate an
exception raised by the cache read. -/
inductive EnsureEffect where
  | refresh (req : Option LoadReq)
  | refreshFromCache (req : Option LoadReq)
  | deduped
  | submitted (job : MetaJob)
  | raise (msg : String)
deriving DecidableEq, Repr

/-- `ensure_meta` (source lines 1141-1180): memory hit → refresh;
disk hit → load into memory and refresh; key in flight → do nothing;
otherwise record the key in flight and submit the worker.  The cache
read sits before the in-flight check and is not wrapped in a handler, so
a decode error propagates. -/
def ensure_meta (s : AppState) (fs : FS) (card : String) : AppState × EnsureEffect :=
  let sig := effective_sig_for_card s card
  let key := (card, sig)
  match s.metaByKey key with
  | some _ =>
    let r := refresh_card_ui s card
    (r.1, EnsureEffect.refresh r.2)
  | none =>
    match get_cached_meta fs card sig with
    | Except.error e => (s, EnsureEffect.raise e)
    | Except.ok (some cached) =>
      let s1 := { s with metaByKey := mapInsert s.metaByKey key cached }
      let r := refresh_card_ui s1 card
      (r.1, EnsureEffect.refreshFromCache r.2)
    | Except.ok none =>
      if s.fetchingMeta key then (s, EnsureEffect.deduped)
      else
        let s1 := { s with fetchingMeta := setAdd s.fetchingMeta key }
        (s1, EnsureEffect.submitted
          { card := card, sig := sig, query := query_for_card s card,
            exact := is_exact_name s card,
            filtersCopy := effective_filters_for_card s card })

/-- The signal a metadata worker emits (`MetaLoaded`, source lines
342-344). -/
inductive MetaSignal where
  | ready (card : String) (prints : List Printing) (sig : String) (autoRelaxed : Bool)
  | err (card msg sig : String)
deriving DecidableEq, Repr

/-- The worker body of `ensure_meta` (source lines 1164-1180).
`fetch query filters exact` is the external
`fetch_all_printings(query, filters, exact_name=exact)` collaborator;
`override` is the `_all_prints_override` membership read when the fetch
completes (it may have changed since submission); `writeFail` injects a
cache-write failure.  The auto-relax heuristic: a truthy filter dict, a
non-empty result of fewer than five printings, and no override yet
trigger an unfiltered re-fetch whose non-empty result is cached and
emitted under the sentinel signature `"ALL"` with the relaxed flag. -/
def meta_worker (fetch : String → Filters → Bool → Except String (List Printing))
    (override : String → Bool) (writeFail : Bool)
    (card sig query : String) (exact : Bool) (filtersCopy : Filters)
    (fs : FS) : FS × MetaSignal :=
  match fetch query filtersCopy exact with
  | Except.error e => (fs, MetaSignal.err card e sig)
  | Except.ok prints =>
    if filtersCopy ≠ [] ∧ 0 < prints.length ∧ prints.length < 5 ∧ override card = false then
      match fetch query [] exact with
      | Except.error e => (fs, MetaSignal.err card e sig)
      | Except.ok fallback =>
        if fallback ≠ [] then
          (set_cached_meta writeFail fs card "ALL" fallback,
           MetaSignal.ready card fallback "ALL" true)
        else
          (set_cached_meta writeFail fs card sig prints,
           MetaSignal.ready card prints sig false)
    else
      (set_cached_meta writeFail fs card sig prints,
       MetaSignal.ready card prints sig false)

/-- `on_meta_ready` (source lines 1182-1194).  Note that the in-flight
discard uses the *emitted* signature, which on the auto-relax path is
`"ALL"` rather than the signature the key was registered under. -/
def on_meta_ready (s : AppState) (card : String) (prints : List Printing)
    (sig : String) (autoRelaxed : Bool) : AppState :=
  let s1 :=
    if autoRelaxed then
      { s with allPrintsOverride := setAdd s.allPrintsOverride card,
               autoRelaxedCards := setAdd s.autoRelaxedCards card }
    else s
  if sig ≠ effective_sig_for_card s1 card then
    { s1 with fetchingMeta := setDel s1.fetchingMeta (card, sig) }
  else
    let s2 := { s1 with
      fetchingMeta := setDel s1.fetchingMeta (card, sig),
      metaByKey := mapInsert s1.metaByKey (card, sig) prints }
    if s2.deck ≠ [] ∧ current_card? s2 = some card then
      let s3 := { s2 with thumbContext := none }
      (refresh_card_ui s3 card).1
    else s2

/-- `on_meta_error` (source lines 1196-1202): the in-flight key is
discarded; the rest of the handler only sets an error text. -/
def on_meta_error (s : AppState) (card msg sig : String) : AppState :=
  let _ := msg
  { s with fetchingMeta := setDel s.fetchingMeta (card, sig) }

/-- Dispatch a worker signal to its connected slot. -/
def dispatch_meta_signal (s : AppState) : MetaSignal → AppState
  | MetaSignal.ready card prints sig ar => on_meta_ready s card prints sig ar
  | MetaSignal.err card msg sig => on_meta_error s card msg sig

/-- `toggle_all_prints_for_current` (source lines 1529-1546): flip the
per-card override (clearing the auto-relax marker on removal), reset the
thumb context, then re-run `ensure_meta` and `refresh_card_ui`. -/
def toggle_all_prints_for_current (s : AppState) (fs : FS) :
    AppState × Option EnsureEffect :=
  if s.deck = [] then (s, none)
  else
    match current_card? s with
    | none => (s, none)
    | some card =>
      let s1 :=
        if s.allPrintsOverride card then
          { s with allPrintsOverride := setDel s.allPrintsOverride card,
                   autoRelaxedCards := setDel s.autoRelaxedCards card }
        else { s with allPrintsOverride := setAdd s.allPrintsOverride card }
      let s2 := { s1 with thumbContext := none }
      let r := ensure_meta s2 fs card
      let r2 := refresh_card_ui r.1 card
      (r2.1, some r.2)

/-! ## Image delivery (source lines 1206-1299) -/

/-- The signal an image worker emits (`ImageLoaded`, source lines
338-340). -/
inductive ImgSignal where
  | bytesReady (key : String) (data : Bytes)
  | imgError (key msg : String)
deriving DecidableEq, Repr

/-- The `job` body of `load_image_bytes_cached` (source lines
1215-1224): fetch the url (the resolved outcome is the oracle
`fetchBytes`), write the cache best-effort, emit the bytes; a fetch
failure emits the error signal. -/
def image_fetch_job (fetchBytes : Except String Bytes) (writeFail : Bool)
    (kind card sig : String) (idx : Nat) (key : String) (fs : FS) : FS × ImgSignal :=
  match fetchBytes with
  | Except.error e => (fs, ImgSignal.imgError key e)
  | Except.ok data =>
    (set_cached_image_bytes writeFail fs kind card sig idx data,
     ImgSignal.bytesReady key data)

/-- What the `bytes_ready` slot did with a delivery: applied a pixmap,
reported a decode failure, or returned without touching the UI. -/
inductive ImgEffect where
  | ignored
  | bigPixmapSet
  | thumbPixmapSet (idx : Nat)
  | decodeFailed (key : String)
deriving DecidableEq, Repr

/-- `on_image_bytes_ready` (source lines 1242-1299).  `decodeOk` is the
external `QPixmap.loadFromData` outcome for the delivered bytes.  The
key is parsed back into `(card, sig, token, index)`; any malformed key,
stale token, changed card or signature, missing or dead widget makes
the handler return without setting a pixmap.  (On the successful thumb
path the source also marks the widget loaded; the claims below concern
only the discard behaviour, so the widget flip is not tracked.) -/
def on_image_bytes_ready (s : AppState) (decodeOk : Bytes → Bool)
    (key : String) (data : Bytes) : ImgEffect :=
  if pyStartsWith "big::" key then
    match pySplit2 key with
    | [_, card, sig, tokS, _] =>
      match parsePyNat tokS with
      | none => ImgEffect.ignored
      | some tok =>
        if s.deck = [] ∨ current_card? s ≠ some card ∨ effective_sig_for_card s card ≠ sig then
          ImgEffect.ignored
        else if tok ≠ s.bigToken then ImgEffect.ignored
        else if s.bigImageValid = false then ImgEffect.ignored
        else if decodeOk data = false then ImgEffect.decodeFailed key
        else ImgEffect.bigPixmapSet
    | _ => ImgEffect.ignored
  else if pyStartsWith "thumb::" key then
    match pySplit2 key with
    | [_, card, sig, tokS, idxS] =>
      match parsePyNat tokS, parsePyNat idxS with
      | some tok, some idx =>
        if s.deck = [] ∨ current_card? s ≠ some card ∨ effective_sig_for_card s card ≠ sig then
          ImgEffect.ignored
        else if tok ≠ s.thumbToken then ImgEffect.ignored
        else if !(decide (idx < s.thumbWidgets.length)) then ImgEffect.ignored
        else
          match (s.thumbWidgets.get? idx).getD none with
          | none => ImgEffect.ignored
          | some w =>
            if w.valid = false ∨ w.token ≠ tok then ImgEffect.ignored
            else if decodeOk data = false then ImgEffect.decodeFailed key
            else ImgEffect.thumbPixmapSet idx
      | _, _ => ImgEffect.ignored
    | _ => ImgEffect.ignored
  else ImgEffect.ignored

/-! ## Rate limiter (`RateLimiter.wait`, source lines 125-138)

`wait` runs under a mutex, so the calls form a serialized sequence of
events.  One event records the instant `e` at which the body read the
clock on entry (line 133) and the instant `f` at which it read the clock
again to set the next allowed instant (line 136); `f` is the last thing
the call observes before returning.  If `e` precedes the stored
`_next_allowed` the body sleeps at least until that instant, so `f` is
not below it; the clock is assumed monotone and the next caller enters
the critical section no earlier than `f`.  `RLRun m na t tr` states that
`tr` is a valid serialized trace of `wait` events given next-allowed
instant `na` and lower bound `t` on the next entry instant
(`_next_allowed` starts at 0). -/

inductive RLRun (m : ℚ) : ℚ → ℚ → List (ℚ × ℚ) → Prop
  | nil : ∀ na t, RLRun m na t []
  | cons : ∀ {na t e f : ℚ} {rest : List (ℚ × ℚ)},
      t ≤ e → e ≤ f → (e < na → na ≤ f) → RLRun m (f + m) f rest →
      RLRun m na t ((e, f) :: rest)

/-! ## Metadata fetch from the remote catalog (source lines 254-314) -/

/-- The `image_uris` dict of a card object; `none` stands for a missing
key or a non-dict value (the source guards with `isinstance(..., dict)`). -/
structure ImgUris where
  small : Option String
  normal : Option String
  large : Option String
  png : Option String
deriving DecidableEq, Repr

/-- One entry of `card_faces`. -/
structure Face where
  image_uris : Option ImgUris
deriving DecidableEq, Repr

/-- The fields of a Scryfall card object the fetch reads; the string
fields model `str(c.get(k, ""))`. -/
structure CardObj where
  image_uris : Option ImgUris
  card_faces : Option (List Face)
  scryfall_uri : String
  set : String
  set_name : String
  collector_number : String
  released_at : String
deriving DecidableEq, Repr

/-- `extract_images` (source lines 254-266): prefer the top-level
`image_uris`; otherwise the first face's `image_uris` if the faces list
is present and non-empty; otherwise nothing. -/
def extract_images (c : CardObj) : Option ImgUris × String :=
  match c.image_uris with
  | some iu => (some iu, c.scryfall_uri)
  | none =>
    match c.card_faces with
    | some (f :: _) => (f.image_uris, c.scryfall_uri)
    | _ => (none, c.scryfall_uri)

/-- ASCII upper-casing, as Python `str.upper()` on the ASCII set codes. -/
def asciiUpperChar (c : Char) : Char :=
  if 'a' ≤ c ∧ c ≤ 'z' then Char.ofNat (c.toNat - 32) else c

def asciiUpper (s : String) : String :=
  String.mk (s.toList.map asciiUpperChar)

/-- The per-card body of the page loop in `fetch_all_printings_with_query`
(source lines 281-306): drop the card when no image dict is usable;
substitute fallbacks for the small and normal urls; drop the card when
either remains falsy; otherwise build the `Printing`. -/
def mkPrinting (c : CardObj) : Option Printing :=
  let r := extract_images c
  match r.1 with
  | none => none
  | some iu =>
    let small := pyOrS iu.small iu.normal
    let normal := pyOrS iu.normal (pyOrS iu.large iu.small)
    match small, normal with
    | some si, some ni =>
      if si = "" ∨ ni = "" then none
      else
        some { set_code := asciiUpper c.set, set_name := c.set_name,
               collector_number := c.collector_number,
               released_at := c.released_at, scryfall_uri := r.2,
               image_small := si, image_normal := ni,
               image_png := iu.png, image_large := iu.large }
    | _, _ => none

/-- Process the `data` array of one response page. -/
def processCards (cs : List CardObj) : List Printing :=
  cs.filterMap mkPrinting

/-- `fetch_all_printings_with_query` (source lines 268-314) over the
successful page sequence the remote served (`has_more` is true exactly
until the last page; rate limiting and HTTP transport are external). -/
def fetch_all_printings_pages : List (List CardObj) → List Printing
  | [] => []
  | pg :: rest => processCards pg ++ fetch_all_printings_pages rest

/-! ## Batch download (`download_prompt.worker`, source lines 1727-1765) -/

/-- `safe_filename`'s forbidden filename characters (source line 157):
the nine punctuation characters and the C0 controls. -/
def badFilenameChar (c : Char) : Bool :=
  c = '<' || c = '>' || c = ':' || c = '"' || c = '/' || c = '\\' ||
  c = '|' || c = '?' || c = '*' || decide (c.toNat ≤ 31)

/-- Collapse runs of spaces to one space.  After the first substitution
every control character (hence every ASCII whitespace except the space)
has become an underscore, so `re.sub(r"\s+", " ", s)` only acts on
runs of spaces for the ASCII names handled here. -/
def collapseSpaces : Bool → List Char → List Char
  | _, [] => []
  | prevSpace, c :: rest =>
    if c = ' ' then
      if prevSpace then collapseSpaces true rest
      else ' ' :: collapseSpaces true rest
    else c :: collapseSpaces false rest

/-- `str.strip()` of the remaining spaces. -/
def stripSpaces (l : List Char) : List Char :=
  ((l.dropWhile fun c => c = ' ').reverse.dropWhile fun c => c = ' ').reverse

/-- `safe_filename` (source lines 156-159). -/
def safe_filename (s : String) : String :=
  let l1 := s.toList.map fun c => if badFilenameChar c then '_' else c
  String.mk ((stripSpaces (collapseSpaces false l1)).take 180)

/-- One stored selection (`project.selections[card]`), with the fields
the download worker reads; `none` models a missing key. -/
structure Sel where
  png_url : Option String
  large_url : Option String
  setCode : Option String
  collector : Option String
deriving DecidableEq, Repr

/-- The destination filename of one copy (source lines 1746-1748). -/
def copyName (card : String) (sel : Sel) (qty copyIdx : Nat) (ext : String) : String :=
  let suffix := if qty > 1 then " (" ++ natStr copyIdx ++ ")" else ""
  safe_filename (card ++ suffix ++ " [" ++ sel.setCode.getD "" ++ " " ++
    sel.collector.getD "" ++ "]") ++ ext

/-- The destination directory contents, filename to bytes. -/
def FileMap := String → Option Bytes

def fileInsert (files : FileMap) (name : String) (data : Bytes) : FileMap :=
  fun n => if n = name then some data else files n

/-- The inner copy loop (source lines 1745-1757) over the remaining copy
indices: a copy whose destination file exists is skipped before any
network call; otherwise the url is fetched (streamed to the file) and a
fetch failure aborts with the exception.  Returns the directory, the
urls actually requested, and the first error. -/
def processCopies (fetch : String → Except String Bytes) (url card : String)
    (sel : Sel) (ext : String) (qty : Nat) :
    List Nat → FileMap → FileMap × List String × Option String
  | [], files => (files, [], none)
  | copyIdx :: rest, files =>
    let fname := copyName card sel qty copyIdx ext
    if (files fname).isSome then processCopies fetch url card sel ext qty rest files
    else
      match fetch url with
      | Except.error e => (files, [url], some e)
      | Except.ok data =>
        let r := processCopies fetch url card sel ext qty rest (fileInsert files fname data)
        (r.1, url :: r.2.1, r.2.2)

/-- One item of the batch (source lines 1738-1757): pick `png_url or
large_url`; a falsy url downloads nothing (progress is still reported by
the loop); otherwise run the copy loop for `card_qty.get(card, 1)`
copies. -/
def processItem (fetch : String → Except String Bytes) (qtyMap : String → Option Nat)
    (card : String) (sel : Sel) (files : FileMap) :
    FileMap × List String × Option String :=
  match pyOrS sel.png_url sel.large_url with
  | none => (files, [], none)
  | some u =>
    if u = "" then (files, [], none)
    else
      let ext := if pyTruthyS sel.png_url then ".png" else ".jpg"
      let qty := (qtyMap card).getD 1
      processCopies fetch u card sel ext qty (List.range' 1 qty) files

/-- The signals of `DownloadSignals` (source lines 346-349). -/
inductive DlSignal where
  | progress (i : Nat)
  | dlDone
  | dlError (msg : String)
deriving DecidableEq, Repr

/-- The worker loop of `download_prompt` (source lines 1727-1765),
enumerating items from 1: the cancellation flag (`cancelAt i` is its
value observed at the check of iteration `i`) breaks out of the loop,
after which the completion signal is still emitted; per-item progress is
emitted after each fully processed item, including items that downloaded
nothing; the first exception emits a single error signal and nothing
else. -/
def download_worker_loop (fetch : String → Except String Bytes)
    (cancelAt : Nat → Bool) (qtyMap : String → Option Nat) :
    Nat → List (String × Sel) → FileMap → FileMap × List DlSignal × List String
  | _, [], files => (files, [DlSignal.dlDone], [])
  | i, (card, sel) :: rest, files =>
    if cancelAt i then (files, [DlSignal.dlDone], [])
    else
      let r := processItem fetch qtyMap card sel files
      match r.2.2 with
      | some e => (r.1, [DlSignal.dlError e], r.2.1)
      | none =>
        let r2 := download_worker_loop fetch cancelAt qtyMap (i + 1) rest r.1
        (r2.1, DlSignal.progress i :: r2.2.1, r.2.1 ++ r2.2.2)

/-- The whole worker over the selected items. -/
def download_worker (fetch : String → Except String Bytes)
    (cancelAt : Nat → Bool) (qtyMap : String → Option Nat)
    (items : List (String × Sel)) (files : FileMap) :
    FileMap × List DlSignal × List String :=
  download_worker_loop fetch cancelAt qtyMap 1 items files

/-! ## Auxiliary classifiers -/

/-- Whether an `ensure_meta` outcome was the in-memory refresh path. -/
def effectIsRefresh : EnsureEffect → Bool
  | EnsureEffect.refresh _ => true
  | _ => false

/-! ## Concrete instances used by the witnesses and counterexamples -/

/-- A window state with an empty project (process start). -/
def baseState : AppState :=
  { deck := [], currentIndex := 0, filters := [],
    cardQuery := fun _ => none, cardQty := fun _ => none,
    activePrintingIndex := fun _ => none,
    metaByKey := fun _ => none, fetchingMeta := fun _ => false,
    allPrintsOverride := fun _ => false, autoRelaxedCards := fun _ => false,
    bigToken := 0, thumbToken := 0, bigImageValid := true,
    thumbWidgets := [], thumbContext := none }

/-- A sample printing. -/
def mkP (i : Nat) : Printing :=
  { set_code := "SET", set_name := "Set", collector_number := natStr i,
    released_at := "2020-01-01", scryfall_uri := "u",
    image_small := "s", image_normal := "n",
    image_png := none, image_large := none }

/-- C1 witness: card `A` shown in ALL-prints mode, big token already
bumped to 1 while a token-0 result is in flight. -/
def c1s : AppState :=
  { baseState with
    deck := ["A"]
    allPrintsOverride := fun c => c == "A"
    bigToken := 1 }

/-- C2 witness: card `A` in ALL-prints mode with nothing resolved. -/
def c2s0 : AppState :=
  { baseState with deck := ["A"], allPrintsOverride := fun c => c == "A" }

def c2s1 : AppState := (ensure_meta c2s0 emptyFS "A").1

def c2job : MetaJob :=
  { card := "A", sig := "ALL", query := "A", exact := true, filtersCopy := [] }

/-- C3 / C4 filter configuration: a single active filter term. -/
def c3filters : Filters := [("border", FVal.fstr "black")]

def c3s0 : AppState := { baseState with deck := ["C"], filters := c3filters }

def c3fsig : String := effective_sig_for_card c3s0 "C"

def c3prints : List Printing := [mkP 1, mkP 2, mkP 3]

def c3fallback : List Printing := (List.range' 1 6).map mkP

/-- The filtered query finds 3 printings, the unfiltered one 6. -/
def c3fetch : String → Filters → Bool → Except String (List Printing) :=
  fun _ f _ => if f = [] then Except.ok c3fallback else Except.ok c3prints

def c3job : MetaJob :=
  { card := "C", sig := c3fsig, query := "C", exact := true, filtersCopy := c3filters }

def c3s1 : AppState := (ensure_meta c3s0 emptyFS "C").1

def c3run : FS × MetaSignal :=
  meta_worker c3fetch c3s1.allPrintsOverride false c3job.card c3job.sig
    c3job.query c3job.exact c3job.filtersCopy emptyFS

def c3s2 : AppState := dispatch_meta_signal c3s1 c3run.2

/-- C4 witness: the spec scenario, 3 filtered results against 40
unfiltered ones. -/
def c4s0 : AppState := { baseState with deck := ["D"], filters := c3filters }

def c4prints : List Printing := [mkP 1, mkP 2, mkP 3]

def c4fallback : List Printing := (List.range' 1 40).map mkP

def c4fetch : String → Filters → Bool → Except String (List Printing) :=
  fun _ f _ => if f = [] then Except.ok c4fallback else Except.ok c4prints

def c4job : MetaJob :=
  { card := "D", sig := effective_sig_for_card c4s0 "D", query := "D",
    exact := true, filtersCopy := c3filters }

def c4s1 : AppState := (ensure_meta c4s0 emptyFS "D").1

/-- C5: a meta cache file whose JSON text is a bare string, which the
read path cannot decode into printings. -/
def c5fs : FS :=
  { emptyFS with metaFiles := fun k =>
      if k = ("A", "ALL") then some (JValue.jstr "bad") else none }

def c5s : AppState :=
  { baseState with deck := ["A"], allPrintsOverride := fun c => c == "A" }

/-- C8 witness: ten back-to-back waits at exactly the allowed instants,
min interval 1/10 s. -/
def rlTrace : List (ℚ × ℚ) :=
  [(0, 0), (1/10, 1/10), (2/10, 2/10), (3/10, 3/10), (4/10, 4/10),
   (5/10, 5/10), (6/10, 6/10), (7/10, 7/10), (8/10, 8/10), (9/10, 9/10)]

/-- C9 witness: one selected card whose single destination file is
already present. -/
def c9sel : Sel :=
  { png_url := some "u", large_url := none, setCode := some "S", collector := some "1" }

def c9files : FileMap :=
  fun n => if n = "A [S 1].png" then some ([1] : Bytes) else none

def c9fetch : String → Except String Bytes := fun _ => Except.ok [2]

/-- C10 witness: one page with one card carrying both image urls. -/
def c10card : CardObj :=
  { image_uris := some { small := some "s", normal := some "n", large := none, png := none },
    card_faces := none, scryfall_uri := "u", set := "set", set_name := "Set",
    collector_number := "1", released_at := "2020-01-01" }

def c10pages : List (List CardObj) := [[c10card]]

def c10p : Printing :=
  { set_code := "SET", set_name := "Set", collector_number := "1",
    released_at := "2020-01-01", scryfall_uri := "u",
    image_small := "s", image_normal := "n", image_png := none, image_large := none }

/-! ## Helper lemmas -/

theorem printingOfJson_printingJson (p : Printing) :
    printingOfJson (printingJson p) = Except.ok p := by
  cases p with
  | mk sc sn cn ra su ismall inormal ipng ilarge =>
    cases ipng <;> cases ilarge <;> rfl

theorem decodeJList_map (l : List Printing) :
    decodeJList (l.map printingJson) = Except.ok l := by
  induction l with
  | nil => rfl
  | cons p rest ih =>
    simp only [List.map, decodeJList, printingOfJson_printingJson, ih]
    rfl

/-- C7: writing a printing list to the meta cache and reading the same
key back returns the identical list, and writing image bytes and
reading the same image key back returns the identical bytes. -/
theorem cache_roundtrip :
    ∀ (fs : FS) (card sig : String) (prints : List Printing)
      (kind icard isig : String) (idx : Nat) (data : Bytes),
      get_cached_meta (set_cached_meta false fs card sig prints) card sig
        = Except.ok (some prints) ∧
      get_cached_image_bytes (set_cached_image_bytes false fs kind icard isig idx data)
        kind icard isig idx = some data := by
  intro fs card sig prints kind icard isig idx data
  constructor
  · simp [set_cached_meta, get_cached_meta, decodeMetaFile, decodeJList_map]
  · simp [set_cached_image_bytes, get_cached_image_bytes]

/-- C6: a cache-write failure is absorbed inside the write: the meta
worker and the image job emit exactly the signal they emit on a
successful write (in particular a successful fetch is still delivered),
and the only difference is that the cache is left unchanged. -/
theorem cache_write_failure_swallowed :
    ∀ (fetch : String → Filters → Bool → Except String (List Printing))
      (override : String → Bool) (card sig query : String) (exact : Bool)
      (fc : Filters) (fs : FS) (fb : Except String Bytes)
      (kind icard isig : String) (idx : Nat) (key : String),
      (meta_worker fetch override true card sig query exact fc fs).2
        = (meta_worker fetch override false card sig query exact fc fs).2 ∧
      (meta_worker fetch override true card sig query exact fc fs).1 = fs ∧
      (image_fetch_job fb true kind icard isig idx key fs).2
        = (image_fetch_job fb false kind icard isig idx key fs).2 ∧
      (image_fetch_job fb true kind icard isig idx key fs).1 = fs ∧
      (∀ data, fb = Except.ok data →
        (image_fetch_job fb true kind icard isig idx key fs).2
          = ImgSignal.bytesReady key data) ∧
      (∀ prints, fetch query fc exact = Except.ok prints → fc = [] →
        (meta_worker fetch override true card sig query exact fc fs).2
          = MetaSignal.ready card prints sig false) := by
  intro fetch override card sig query exact fc fs fb kind icard isig idx key
  refine ⟨?_, ?_, ?_, ?_, ?_, ?_⟩
  · unfold meta_worker
    cases hf : fetch query fc exact with
    | error e => rfl
    | ok prints =>
      dsimp only
      split
      · cases hg : fetch query [] exact with
        | error e => rfl
        | ok fallback => dsimp only; split <;> rfl
      · rfl
  · unfold meta_worker
    cases hf : fetch query fc exact with
    | error e => rfl
    | ok prints =>
      dsimp only
      split
      · cases hg : fetch query [] exact with
        | error e => rfl
        | ok fallback => dsimp only; split <;> simp [set_cached_meta]
      · simp [set_cached_meta]
  · cases fb <;> rfl
  · cases fb <;> simp [image_fetch_job, set_cached_image_bytes]
  · intro data hd
    subst hd
    rfl
  · intro prints hf hfc
    subst hfc
    unfold meta_worker
    rw [hf]
    dsimp only
    rw [if_neg]
    intro hcontra
    exact hcontra.1 rfl

/-- C6 witness: with a failing cache write, a successful image fetch is
still delivered and a successful unfiltered meta fetch is still
delivered. -/
theorem cache_write_failure_swallowed_witness :
    (image_fetch_job (Except.ok ([7] : Bytes)) true "small" "A" "S" 0 "k" emptyFS).2
      = ImgSignal.bytesReady "k" ([7] : Bytes) ∧
    (meta_worker (fun _ _ _ => Except.ok [mkP 1]) (fun _ => false) true
      "A" "S" "A" true [] emptyFS).2 = MetaSignal.ready "A" [mkP 1] "S" false := by
  constructor
  · exact (cache_write_failure_swallowed (fun _ _ _ => Except.ok [mkP 1]) (fun _ => false)
      "A" "S" "A" true [] emptyFS (Except.ok ([7] : Bytes)) "small" "A" "S" 0 "k").2.2.2.2.1
      ([7] : Bytes) rfl
  · exact (cache_write_failure_swallowed (fun _ _ _ => Except.ok [mkP 1]) (fun _ => false)
      "A" "S" "A" true [] emptyFS (Except.ok ([7] : Bytes)) "small" "A" "S" 0 "k").2.2.2.2.2
      [mkP 1] rfl rfl

theorem rl_chain {m : ℚ} :
    ∀ {na t : ℚ} {tr : List (ℚ × ℚ)}, RLRun m na t tr →
      List.Chain' (fun a b : ℚ × ℚ => a.2 + m ≤ b.2) tr := by
  intro na t tr h
  induction h with
  | nil na t => exact List.chain'_nil
  | cons h1 h2 h3 hrest ih =>
    rw [List.chain'_cons']
    refine ⟨?_, ih⟩
    intro y hy
    cases hrest with
    | nil => simp at hy
    | @cons na' t' e' f' rest' h1' h2' h3' hrest' =>
      simp only [List.head?_cons, Option.mem_def, Option.some.injEq] at hy
      subst hy
      rcases le_or_lt (_ + m) e' with hle | hlt
      · exact le_trans hle h2'
      · exact h3' hlt

theorem rl_chain_last {m : ℚ} :
    ∀ (tr : List (ℚ × ℚ)) (p q : ℚ × ℚ),
      List.Chain' (fun a b : ℚ × ℚ => a.2 + m ≤ b.2) tr →
      tr.head? = some p → tr.getLast? = some q →
      p.2 + (tr.length - 1 : ℕ) * m ≤ q.2 := by
  intro tr
  induction tr with
  | nil => intro p q _ hp _; simp at hp
  | cons a rest ih =>
    intro p q hch hp hq
    simp only [List.head?_cons, Option.some.injEq] at hp
    subst hp
    cases rest with
    | nil =>
      simp only [List.getLast?_singleton, Option.some.injEq] at hq
      subst hq
      simp
    | cons b rest2 =>
      have hR : a.2 + m ≤ b.2 := (List.chain'_cons.mp hch).1
      have hch2 := (List.chain'_cons.mp hch).2
      rw [List.getLast?_cons_cons] at hq
      have hih := ih b q hch2 rfl hq
      have hlen : (((b :: rest2).length - 1 : ℕ) : ℚ) = (rest2.length : ℚ) := by
        simp
      have hlen2 : (((a :: b :: rest2).length - 1 : ℕ) : ℚ) = (rest2.length : ℚ) + 1 := by
        push_cast [List.length_cons]
        ring
      rw [hlen] at hih
      rw [hlen2]
      linarith

/-- C8: in any serialized trace of `RateLimiter.wait` calls, consecutive
completions are at least `min_interval` apart, and a run of n calls
spans at least (n-1) times `min_interval` from the first call's entry to
the last call's completion (so ten back-to-back calls with a 100 ms
interval take at least 900 ms). -/
theorem rate_limiter_spacing :
    ∀ (m na t : ℚ) (tr : List (ℚ × ℚ)), RLRun m na t tr →
      List.Chain' (fun a b : ℚ × ℚ => a.2 + m ≤ b.2) tr ∧
      (∀ p q, tr.head? = some p → tr.getLast? = some q →
        p.1 + (tr.length - 1 : ℕ) * m ≤ q.2) := by
  intro m na t tr h
  refine ⟨rl_chain h, ?_⟩
  intro p q hp hq
  have hpf : p.1 ≤ p.2 := by
    cases h with
    | nil => simp at hp
    | cons h1 h2 h3 hrest =>
      simp only [List.head?_cons, Option.some.injEq] at hp
      subst hp
      exact h2
  have := rl_chain_last tr p q (rl_chain h) hp hq
  linarith

/-- C8 witness: the ten-call trace at exactly the allowed instants with
`min_interval = 1/10` is a valid run, and its total span is at least
9/10 of a second. -/
theorem rate_limiter_spacing_witness :
    (0 : ℚ) + ((rlTrace.length - 1 : ℕ) : ℚ) * (1/10) ≤ 9/10 := by
  have hrun : RLRun (1/10) 0 0 rlTrace := by
    unfold rlTrace
    repeat
      first
      | exact RLRun.nil _ _
      | refine RLRun.cons (by norm_num) (by norm_num) (fun _ => by norm_num) ?_
  have := (rate_limiter_spacing (1/10) 0 0 rlTrace hrun).2 (0, 0) (9/10, 9/10) rfl rfl
  simpa using this

/-- C1: a delivered image result whose key parses back to a token that
the corresponding counter has been bumped past, or whose card or
signature no longer matches the displayed card and its effective
signature, is never applied: `on_image_bytes_ready` returns without
setting a pixmap, for big-preview keys and thumbnail keys alike. -/
theorem stale_image_result_discarded :
    ∀ (s : AppState) (decodeOk : Bytes → Bool) (data : Bytes)
      (key card sig tokS lastS : String) (tok : Nat),
      (pyStartsWith "big::" key = true →
       pySplit2 key = ["big", card, sig, tokS, lastS] →
       parsePyNat tokS = some tok →
       (tok < s.bigToken ∨ current_card? s ≠ some card ∨
        effective_sig_for_card s card ≠ sig) →
       on_image_bytes_ready s decodeOk key data = ImgEffect.ignored) ∧
      (pyStartsWith "big::" key = false →
       pyStartsWith "thumb::" key = true →
       pySplit2 key = ["thumb", card, sig, tokS, lastS] →
       parsePyNat tokS = some tok →
       (tok < s.thumbToken ∨ current_card? s ≠ some card ∨
        effective_sig_for_card s card ≠ sig) →
       on_image_bytes_ready s decodeOk key data = ImgEffect.ignored) := by
  intro s decodeOk data key card sig tokS lastS tok
  constructor
  · intro h1 h2 h3 h4
    unfold on_image_bytes_ready
    rw [h1, h2]
    simp only [if_true]
    rw [h3]
    dsimp only
    by_cases hc : s.deck = [] ∨ current_card? s ≠ some card ∨
        effective_sig_for_card s card ≠ sig
    · rw [if_pos hc]
    · rw [if_neg hc]
      rcases h4 with hlt | hmc | hms
      · rw [if_pos (Nat.ne_of_lt hlt)]
      · exact absurd (Or.inr (Or.inl hmc)) hc
      · exact absurd (Or.inr (Or.inr hms)) hc
  · intro h0 h1 h2 h3 h4
    unfold on_image_bytes_ready
    rw [h0, h1, h2]
    simp only [Bool.false_eq_true, if_false, if_true]
    rw [h3]
    cases hl : parsePyNat lastS with
    | none => rfl
    | some idx =>
      dsimp only
      by_cases hc : s.deck = [] ∨ current_card? s ≠ some card ∨
          effective_sig_for_card s card ≠ sig
      · rw [if_pos hc]
      · rw [if_neg hc]
        rcases h4 with hlt | hmc | hms
        · rw [if_pos (Nat.ne_of_lt hlt)]
        · exact absurd (Or.inr (Or.inl hmc)) hc
        · exact absurd (Or.inr (Or.inr hms)) hc

/-- C1 witness: with the big token already bumped to 1, a token-0 big
result for the displayed card is ignored. -/
theorem stale_image_result_discarded_witness :
    on_image_bytes_ready c1s (fun _ => true) "big::A::ALL::0::0" ([] : Bytes)
      = ImgEffect.ignored :=
  (stale_image_result_discarded c1s (fun _ => true) [] "big::A::ALL::0::0"
    "A" "ALL" "0" "0" 0).1 (by decide) (by decide) (by decide)
    (Or.inl (by decide))

theorem ensure_meta_submitted_inv {s : AppState} {fs : FS} {card : String}
    {s1 : AppState} {j : MetaJob}
    (h : ensure_meta s fs card = (s1, EnsureEffect.submitted j)) :
    s.metaByKey (card, effective_sig_for_card s card) = none ∧
    get_cached_meta fs card (effective_sig_for_card s card) = Except.ok none ∧
    s.fetchingMeta (card, effective_sig_for_card s card) = false ∧
    s1 = { s with fetchingMeta := setAdd s.fetchingMeta (card, effective_sig_for_card s card) } ∧
    j = { card := card, sig := effective_sig_for_card s card,
          query := query_for_card s card, exact := is_exact_name s card,
          filtersCopy := effective_filters_for_card s card } := by
  unfold ensure_meta at h
  dsimp only at h
  cases hm : s.metaByKey (card, effective_sig_for_card s card) with
  | some v => rw [hm] at h; simp at h
  | none =>
    rw [hm] at h
    dsimp only at h
    cases hc : get_cached_meta fs card (effective_sig_for_card s card) with
    | error e => rw [hc] at h; simp at h
    | ok o =>
      cases o with
      | some cached => rw [hc] at h; simp at h
      | none =>
        rw [hc] at h
        dsimp only at h
        by_cases hf : s.fetchingMeta (card, effective_sig_for_card s card) = true
        · rw [if_pos hf] at h; simp at h
        · rw [if_neg hf] at h
          obtain ⟨hs1, hj⟩ := Prod.mk.injEq .. ▸ h
          refine ⟨rfl, rfl, by simpa using hf, hs1.symm, ?_⟩
          simp only [EnsureEffect.submitted.injEq] at hj
          exact hj.symm

/-- C2: once `ensure_meta` has submitted a fetch for a (card, signature)
pair, a second `ensure_meta` call for the same pair (with the fetch
still outstanding and the cache unchanged) submits nothing and leaves
the state unchanged: the in-flight set keeps the underlying fetch to at
most one submission. -/
theorem ensure_meta_dedup :
    ∀ (s : AppState) (fs : FS) (card : String) (s1 : AppState) (j : MetaJob),
      ensure_meta s fs card = (s1, EnsureEffect.submitted j) →
      ensure_meta s1 fs card = (s1, EnsureEffect.deduped) := by
  intro s fs card s1 j h
  obtain ⟨hm, hc, _, hs1, _⟩ := ensure_meta_submitted_inv h
  subst hs1
  unfold ensure_meta
  dsimp only
  have hsig : effective_sig_for_card
      { s with fetchingMeta := setAdd s.fetchingMeta (card, effective_sig_for_card s card) } card
      = effective_sig_for_card s card := rfl
  rw [hsig, hm, hc]
  dsimp only
  rw [if_pos]
  simp [setAdd]

/-- C2 witness: submitting for card `A` and calling again before
completion yields the silent dedup outcome. -/
theorem ensure_meta_dedup_witness :
    ensure_meta c2s1 emptyFS "A" = (c2s1, EnsureEffect.deduped) :=
  ensure_meta_dedup c2s0 emptyFS "A" c2s1 c2job rfl

/-- C3 (violated by the code): the auto-relax completion path does not
remove the key it registered.  Concretely: `ensure_meta` registers
`("C", filteredSig)` and submits; the worker auto-relaxes (3 filtered
results, 6 unfiltered) and emits under `"ALL"`; `on_meta_ready` discards
`("C", "ALL")` — a key that was never registered — so
`("C", filteredSig)` is still in the in-flight set after completion;
and after the user toggles the override back off, `ensure_meta` for the
same card silently declines to fetch for the rest of the session. -/
theorem auto_relax_inflight_key_leak :
    (ensure_meta c3s0 emptyFS "C").2 = EnsureEffect.submitted c3job ∧
    c3s1.fetchingMeta ("C", c3fsig) = true ∧
    c3run.2 = MetaSignal.ready "C" c3fallback "ALL" true ∧
    c3s2.fetchingMeta ("C", c3fsig) = true ∧
    (toggle_all_prints_for_current c3s2 c3run.1).2 = some EnsureEffect.deduped := by
  refine ⟨rfl, rfl, rfl, rfl, rfl⟩

theorem refresh_preserves (s : AppState) (card : String) :
    ((refresh_card_ui s card).1).metaByKey = s.metaByKey ∧
    ((refresh_card_ui s card).1).allPrintsOverride = s.allPrintsOverride ∧
    ((refresh_card_ui s card).1).fetchingMeta = s.fetchingMeta ∧
    ((refresh_card_ui s card).1).filters = s.filters ∧
    ((refresh_card_ui s card).1).deck = s.deck ∧
    ((refresh_card_ui s card).1).currentIndex = s.currentIndex ∧
    ((refresh_card_ui s card).1).cardQuery = s.cardQuery ∧
    ((refresh_card_ui s card).1).autoRelaxedCards = s.autoRelaxedCards := by
  unfold refresh_card_ui
  dsimp only
  cases (s.metaByKey (card, effective_sig_for_card s card)).getD [] with
  | nil => simp [clear_thumbnails]
  | cons first rest =>
    dsimp only
    split <;> simp [build_thumbnails, clear_thumbnails]

theorem ensure_meta_hit_isRefresh {s : AppState} {fs : FS} {card : String}
    {v : List Printing}
    (h : s.metaByKey (card, effective_sig_for_card s card) = some v) :
    effectIsRefresh (ensure_meta s fs card).2 = true := by
  unfold ensure_meta
  dsimp only
  rw [h]
  rfl

theorem effective_sig_override {s : AppState} {card : String}
    (h : s.allPrintsOverride card = true) :
    effective_sig_for_card s card = "ALL" := by
  simp [effective_sig_for_card, h]

theorem on_meta_ready_relaxed (s : AppState) (card : String) (prints : List Printing) :
    (on_meta_ready s card prints "ALL" true).allPrintsOverride card = true ∧
    (on_meta_ready s card prints "ALL" true).metaByKey (card, "ALL") = some prints := by
  unfold on_meta_ready
  dsimp only
  rw [if_pos (rfl : true = true)]
  split
  · rename_i hne
    exfalso
    apply hne
    simp [effective_sig_for_card, setAdd]
  · split
    · constructor
      · rw [(refresh_preserves _ card).2.1]
        simp [setAdd]
      · rw [(refresh_preserves _ card).1]
        simp [mapInsert]
    · constructor
      · simp [setAdd]
      · simp [mapInsert]

/-- C4: when a submitted job carries a non-empty filter configuration on
a card without the all-prints override, a filtered result of between one
and four printings together with a non-empty unfiltered re-fetch makes
the worker deliver the unfiltered list tagged with signature `"ALL"`
and the auto-relaxed flag; the ready handler then puts the card into the
all-prints override and records the list under the ALL signature, and a
subsequent `ensure_meta` for the card resolves in memory (no further
fetch submission). -/
theorem auto_relax_supersedes :
    ∀ (s : AppState) (fs : FS) (card : String) (s1 : AppState) (j : MetaJob)
      (fetch : String → Filters → Bool → Except String (List Printing))
      (writeFail : Bool) (prints fallback : List Printing),
      ensure_meta s fs card = (s1, EnsureEffect.submitted j) →
      j.filtersCopy ≠ [] →
      s.allPrintsOverride card = false →
      fetch j.query j.filtersCopy j.exact = Except.ok prints →
      0 < prints.length → prints.length < 5 →
      fetch j.query [] j.exact = Except.ok fallback →
      fallback ≠ [] →
      (meta_worker fetch s1.allPrintsOverride writeFail j.card j.sig j.query
          j.exact j.filtersCopy fs).2
        = MetaSignal.ready card fallback "ALL" true ∧
      (on_meta_ready s1 card fallback "ALL" true).allPrintsOverride card = true ∧
      (on_meta_ready s1 card fallback "ALL" true).metaByKey (card, "ALL")
        = some fallback ∧
      effectIsRefresh (ensure_meta (on_meta_ready s1 card fallback "ALL" true)
          (meta_worker fetch s1.allPrintsOverride writeFail j.card j.sig j.query
            j.exact j.filtersCopy fs).1 card).2 = true := by
  intro s fs card s1 j fetch writeFail prints fallback
  intro hsub hfc hov hf1 hlen1 hlen5 hf2 hfb
  obtain ⟨hm, hc, hfet, hs1, hj⟩ := ensure_meta_submitted_inv hsub
  subst hs1
  subst hj
  try dsimp only at hfc hf1 hf2 ⊢
  have hworker :
      (meta_worker fetch
          (AppState.allPrintsOverride
            { s with fetchingMeta := setAdd s.fetchingMeta (card, effective_sig_for_card s card) })
          writeFail card (effective_sig_for_card s card) (query_for_card s card)
          (is_exact_name s card) (effective_filters_for_card s card) fs)
        = (set_cached_meta writeFail fs card "ALL" fallback,
           MetaSignal.ready card fallback "ALL" true) := by
    unfold meta_worker
    rw [hf1]
    dsimp only
    rw [if_pos ⟨hfc, hlen1, hlen5, hov⟩]
    rw [hf2]
    dsimp only
    rw [if_pos hfb]
  have hrel := on_meta_ready_relaxed
    { s with fetchingMeta := setAdd s.fetchingMeta (card, effective_sig_for_card s card) }
    card fallback
  refine ⟨by rw [hworker], hrel.1, hrel.2, ?_⟩
  apply ensure_meta_hit_isRefresh
  rw [effective_sig_override hrel.1]
  exact hrel.2

/-- C4 witness: the spec scenario (3 filtered results, 40 unfiltered)
delivers the 40-element list tagged `"ALL"` with the relaxed flag. -/
theorem auto_relax_supersedes_witness :
    (meta_worker c4fetch c4s1.allPrintsOverride false c4job.card c4job.sig
        c4job.query c4job.exact c4job.filtersCopy emptyFS).2
      = MetaSignal.ready "D" c4fallback "ALL" true :=
  (auto_relax_supersedes c4s0 emptyFS "D" c4s1 c4job c4fetch false c4prints c4fallback
    rfl (by decide) rfl rfl (by decide) (by decide) rfl (by decide)).1

/-- C5 counterexample: a present meta cache file whose content cannot
be decoded makes `get_cached_meta` raise, and the error propagates out
of `ensure_meta` — the corrupt entry is not treated as a cache miss and
no fresh fetch is triggered. -/
theorem corrupt_meta_cache_raises_cex :
    get_cached_meta c5fs "A" "ALL" = Except.error "TypeError" ∧
    ensure_meta c5s c5fs "A" = (c5s, EnsureEffect.raise "TypeError") := by
  exact ⟨rfl, rfl⟩

/-- C5 amended: for every cached metadata file whose contents fail to
decode as the expected list of printing records, `get_cached_meta`
raises and `ensure_meta` propagates the error to its caller with the
state unchanged (in particular no fetch is submitted). -/
theorem corrupt_meta_cache_propagates :
    ∀ (s : AppState) (fs : FS) (card : String) (j : JValue) (e : String),
      s.metaByKey (card, effective_sig_for_card s card) = none →
      fs.metaFiles (card, effective_sig_for_card s card) = some j →
      decodeMetaFile j = Except.error e →
      ensure_meta s fs card = (s, EnsureEffect.raise e) := by
  intro s fs card j e hm hf hd
  unfold ensure_meta
  dsimp only
  rw [hm]
  dsimp only
  unfold get_cached_meta
  rw [hf]
  dsimp only
  rw [hd]

/-- C5 amended witness: the concrete corrupt file raises out of
`ensure_meta`. -/
theorem corrupt_meta_cache_propagates_witness :
    ensure_meta c5s c5fs "A" = (c5s, EnsureEffect.raise "TypeError") :=
  corrupt_meta_cache_propagates c5s c5fs "A" (JValue.jstr "bad") "TypeError"
    rfl rfl rfl

theorem processCopies_skip
    (fetch : String → Except String Bytes) (url card : String) (sel : Sel)
    (ext : String) (qty : Nat) :
    ∀ (l : List Nat) (files : FileMap),
      (∀ ci ∈ l, (files (copyName card sel qty ci ext)).isSome = true) →
      processCopies fetch url card sel ext qty l files = (files, [], none) := by
  intro l
  induction l with
  | nil => intro files _; rfl
  | cons ci rest ih =>
    intro files hall
    unfold processCopies
    rw [if_pos (hall ci (List.mem_cons_self ci rest))]
    exact ih files fun x hx => hall x (List.mem_cons_of_mem ci hx)

theorem processCopies_no_error
    (fetch : String → Except String Bytes) (url card : String) (sel : Sel)
    (ext : String) (qty : Nat)
    (hfetch : ∀ u, ∃ b, fetch u = Except.ok b) :
    ∀ (l : List Nat) (files : FileMap),
      (processCopies fetch url card sel ext qty l files).2.2 = none := by
  intro l
  induction l with
  | nil => intro files; rfl
  | cons ci rest ih =>
    intro files
    unfold processCopies
    by_cases hex : (files (copyName card sel qty ci ext)).isSome = true
    · rw [if_pos hex]
      exact ih files
    · rw [if_neg hex]
      obtain ⟨b, hb⟩ := hfetch url
      rw [hb]
      dsimp only
      exact ih _

theorem processItem_no_error
    (fetch : String → Except String Bytes) (qtyMap : String → Option Nat)
    (card : String) (sel : Sel) (files : FileMap)
    (hfetch : ∀ u, ∃ b, fetch u = Except.ok b) :
    (processItem fetch qtyMap card sel files).2.2 = none := by
  unfold processItem
  cases pyOrS sel.png_url sel.large_url with
  | none => rfl
  | some u =>
    dsimp only
    by_cases hu : u = ""
    · rw [if_pos hu]
    · rw [if_neg hu]
      exact processCopies_no_error fetch u card sel _ _ hfetch _ files

theorem download_loop_progress
    (fetch : String → Except String Bytes) (cancelAt : Nat → Bool)
    (qtyMap : String → Option Nat)
    (hcancel : ∀ j, cancelAt j = false)
    (hfetch : ∀ u, ∃ b, fetch u = Except.ok b) :
    ∀ (items : List (String × Sel)) (i : Nat) (files : FileMap),
      (download_worker_loop fetch cancelAt qtyMap i items files).2.1
        = (List.range' i items.length).map DlSignal.progress ++ [DlSignal.dlDone] := by
  intro items
  induction items with
  | nil => intro i files; rfl
  | cons item rest ih =>
    intro i files
    obtain ⟨card, sel⟩ := item
    unfold download_worker_loop
    rw [hcancel i]
    dsimp only
    rw [processItem_no_error fetch qtyMap card sel files hfetch]
    dsimp only
    rw [ih]
    simp [List.range']

/-- C9: in the batch download worker, an item whose destination files
all already exist is completed with no network call and no file change;
the cancellation flag, checked at the top of each iteration, stops the
batch with the completion signal and no further processing; with
cancellation clear and all fetches succeeding, exactly one progress
signal is emitted per item (skipped items included) followed by the
completion signal; and the first fetch error ends the batch with that
single error signal, dropping the remaining items. -/
theorem download_batch_behavior :
    ∀ (fetch : String → Except String Bytes) (cancelAt : Nat → Bool)
      (qtyMap : String → Option Nat),
      (∀ (card : String) (sel : Sel) (files : FileMap),
        (∀ ci ∈ List.range' 1 ((qtyMap card).getD 1),
          (files (copyName card sel ((qtyMap card).getD 1) ci
            (if pyTruthyS sel.png_url then ".png" else ".jpg"))).isSome = true) →
        processItem fetch qtyMap card sel files = (files, [], none)) ∧
      (∀ (i : Nat) (item : String × Sel) (rest : List (String × Sel)) (files : FileMap),
        cancelAt i = true →
        download_worker_loop fetch cancelAt qtyMap i (item :: rest) files
          = (files, [DlSignal.dlDone], [])) ∧
      ((∀ j, cancelAt j = false) → (∀ u, ∃ b, fetch u = Except.ok b) →
        ∀ (items : List (String × Sel)) (i : Nat) (files : FileMap),
        (download_worker_loop fetch cancelAt qtyMap i items files).2.1
          = (List.range' i items.length).map DlSignal.progress ++ [DlSignal.dlDone]) ∧
      (∀ (i : Nat) (card : String) (sel : Sel) (rest : List (String × Sel))
          (files : FileMap) (e : String),
        cancelAt i = false →
        (processItem fetch qtyMap card sel files).2.2 = some e →
        download_worker_loop fetch cancelAt qtyMap i ((card, sel) :: rest) files
          = ((processItem fetch qtyMap card sel files).1,
             [DlSignal.dlError e],
             (processItem fetch qtyMap card sel files).2.1)) := by
  intro fetch cancelAt qtyMap
  refine ⟨?_, ?_, ?_, ?_⟩
  · intro card sel files hall
    unfold processItem
    cases pyOrS sel.png_url sel.large_url with
    | none => rfl
    | some u =>
      dsimp only
      by_cases hu : u = ""
      · rw [if_pos hu]
      · rw [if_neg hu]
        exact processCopies_skip fetch u card sel _ _ _ files hall
  · intro i item rest files hcan
    obtain ⟨card, sel⟩ := item
    unfold download_worker_loop
    rw [hcan]
    rfl
  · intro hcancel hfetch items i files
    exact download_loop_progress fetch cancelAt qtyMap hcancel hfetch items i files
  · intro i card sel rest files e hcan herr
    unfold download_worker_loop
    rw [hcan]
    dsimp only
    rw [herr]
    rfl

/-- C9 witness: a selected card whose single destination file already
exists is completed with no network call and the directory untouched. -/
theorem download_batch_behavior_witness :
    processItem c9fetch (fun _ => none) "A" c9sel c9files = (c9files, [], none) :=
  (download_batch_behavior c9fetch (fun _ => false) (fun _ => none)).1
    "A" c9sel c9files (by decide)

theorem mkPrinting_some_nonempty {c : CardObj} {p : Printing}
    (h : mkPrinting c = some p) :
    p.image_small ≠ "" ∧ p.image_normal ≠ "" := by
  unfold mkPrinting at h
  dsimp only at h
  cases hx : (extract_images c).1 with
  | none => rw [hx] at h; simp at h
  | some iu =>
    rw [hx] at h
    dsimp only at h
    cases hs : pyOrS iu.small iu.normal with
    | none => rw [hs] at h; simp at h
    | some si =>
      rw [hs] at h
      cases hn : pyOrS iu.normal (pyOrS iu.large iu.small) with
      | none => rw [hn] at h; simp at h
      | some ni =>
        rw [hn] at h
        dsimp only at h
        by_cases hsiempty : si = "" ∨ ni = ""
        · rw [if_pos hsiempty] at h; simp at h
        · rw [if_neg hsiempty] at h
          push_neg at hsiempty
          obtain ⟨rfl⟩ := Option.some.injEq .. ▸ h.symm
          exact hsiempty

theorem fetch_pages_mem {pages : List (List CardObj)} {p : Printing}
    (h : p ∈ fetch_all_printings_pages pages) :
    ∃ c, mkPrinting c = some p := by
  induction pages with
  | nil => simp [fetch_all_printings_pages] at h
  | cons pg rest ih =>
    unfold fetch_all_printings_pages at h
    rcases List.mem_append.mp h with hl | hr
    · obtain ⟨c, _, hc⟩ := List.mem_filterMap.mp hl
      exact ⟨c, hc⟩
    · exact ih hr

/-- C10: every printing the metadata fetch returns carries non-empty
small and normal image urls; a card with no usable image dict, or whose
small or normal url is still falsy after the fallback substitutions, is
dropped from the result. -/
theorem printings_have_images :
    (∀ (pages : List (List CardObj)) (p : Printing),
      p ∈ fetch_all_printings_pages pages →
      p.image_small ≠ "" ∧ p.image_normal ≠ "") ∧
    (∀ c : CardObj, (extract_images c).1 = none → mkPrinting c = none) ∧
    (∀ (c : CardObj) (iu : ImgUris), (extract_images c).1 = some iu →
      (pyTruthyS (pyOrS iu.small iu.normal) = false ∨
       pyTruthyS (pyOrS iu.normal (pyOrS iu.large iu.small)) = false) →
      mkPrinting c = none) := by
  refine ⟨?_, ?_, ?_⟩
  · intro pages p hmem
    obtain ⟨c, hc⟩ := fetch_pages_mem hmem
    exact mkPrinting_some_nonempty hc
  · intro c h
    unfold mkPrinting
    dsimp only
    rw [h]
  · intro c iu hx hfal
    unfold mkPrinting
    dsimp only
    rw [hx]
    dsimp only
    rcases hfal with hf | hf
    · cases hs : pyOrS iu.small iu.normal with
      | none => rfl
      | some si =>
        rw [hs] at hf
        cases hn : pyOrS iu.normal (pyOrS iu.large iu.small) with
        | none => rfl
        | some ni =>
          dsimp only
          rw [if_pos]
          left
          simpa [pyTruthyS] using hf
    · cases hs : pyOrS iu.small iu.normal with
      | none => rfl
      | some si =>
        cases hn : pyOrS iu.normal (pyOrS iu.large iu.small) with
        | none => rfl
        | some ni =>
          rw [hn] at hf
          dsimp only
          rw [if_pos]
          right
          simpa [pyTruthyS] using hf

/-- C10 witness: a concrete card with both urls yields a printing with
non-empty small and normal urls. -/
theorem printings_have_images_witness :
    c10p.image_small ≠ "" ∧ c10p.image_normal ≠ "" :=
  printings_have_images.1 c10pages c10p (by decide)

end MtgArtPicker
